import Mathlib

/-!
# Verification of `types/invoker.go` (connector-sdk)

A shallow embedding of the dispatcher `Invoker.InvokeWithContext` and of the
function invocation client `invokefunction`.

Modelling conventions.

* A Go pointer that may be nil (`*[]byte`, `*http.Header`, `*map[string]string`,
  `error`) is an `Option`; `nil` is `none`.  A non-nil pointer to an empty
  slice is `some []`, which is different from `none`.
* The pointers the source dereferences without a check (`message`, `topicMap`,
  the client `c`) are taken to be non-nil.
* `http.NewRequest` fails on an address that does not parse; the source
  discards its error (line 85) and dereferences the nil request on the next
  line, which panics.  The URL parser of the library is a parameter `parse` of
  the model: it gives the parsed, re-encoded address, or `none` when the
  address does not parse.  A panic ends the dispatch: what was sent before it
  stays sent, and the run is marked `panicked`.
* The transport `http.Client.Do` is an arbitrary stateful function: it takes
  its own state and the request, and gives back a response or an error and its
  next state.  Every request handed to it is appended to the trace `issued`.
* The unbuffered channel `Responses` is the list of the values sent on it, in
  the order they are sent; a consumer is assumed to receive each of them.
* `TopicMap` is not part of the file; it is used through `Match` only and is
  a parameter of the model.
* `log.Printf` lines and the deferred `Close` calls have no effect on the
  values returned or published and are left out.
-/

namespace ConnectorSDK

/-- The bytes of a `[]byte`. -/
abbrev Bytes := List UInt8

/-- A `context.Context`: a label that identifies it and whether it is already
cancelled. -/
structure Context where
  name : String
  done : Bool
deriving DecidableEq, Repr

/-- The value of `context.Background()`: never cancelled. -/
def Context.Background : Context := { name := "background", done := false }

/-- A Go `error` value.  `errorString` is what `fmt.Errorf` and `errors.New`
build from a message; `withMessage` is what `errors.Wrap` of
`github.com/pkg/errors` builds around a cause. -/
inductive GoError where
  | errorString (s : String)
  | withMessage (cause : GoError) (msg : String)
deriving DecidableEq, Repr

/-- The method `Error()` of an error value. -/
def GoError.Error : GoError → String
  | GoError.errorString s => s
  | GoError.withMessage cause msg => msg ++ ": " ++ cause.Error

/-- The function `errors.Wrap(err, message)` for a non-nil `err`. -/
def errorsWrap (err : GoError) (message : String) : GoError :=
  GoError.withMessage err message

/-- The function `fmt.Errorf` for a format without verbs. -/
def fmtErrorf (format : String) : GoError := GoError.errorString format

/-- A Go map as the list of its entries, in insertion order. -/
abbrev GoMap (α β : Type) := List (α × β)

/-- The lookup `m[k]` with its presence flag. -/
def GoMap.get? {α β : Type} [DecidableEq α] (m : GoMap α β) (k : α) : Option β :=
  match m with
  | [] => none
  | (k', v') :: rest => if k' = k then some v' else GoMap.get? rest k

/-- The assignment `m[k] = v`: replaces the value of an existing key, adds the
entry otherwise. -/
def GoMap.set {α β : Type} [DecidableEq α] (m : GoMap α β) (k : α) (v : β) : GoMap α β :=
  match m with
  | [] => [(k, v)]
  | (k', v') :: rest => if k' = k then (k, v) :: rest else (k', v') :: GoMap.set rest k v

/-- The keys of a map. -/
def GoMap.keys {α β : Type} (m : GoMap α β) : List α := m.map Prod.fst

/-- The type `http.Header`, a `map[string][]string`. -/
abbrev HttpHeader := GoMap String (List String)

/-- The fields of `http.Request` the invoker sets or the transport reads.  `URL`
is the parsed address of the request, written back as a string. -/
structure Request where
  Method : String
  URL : String
  Body : Bytes
  Header : HttpHeader
  ctx : Context
deriving DecidableEq, Repr

/-- The constant `http.MethodPost`. -/
def MethodPost : String := "POST"

/-- The constant `http.StatusServiceUnavailable`. -/
def StatusServiceUnavailable : Int := 503

/-- The function `http.NewRequest(method, url, body)`.  When the address parses
it gives a request for the parsed address with an empty header map and the
background context; when it does not, the request it returns is nil (`none`)
and comes with an error. -/
def NewRequest (parse : String → Option String) (method url : String) (body : Bytes) :
    Option Request :=
  match parse url with
  | some u =>
    some { Method := method, URL := u, Body := body, Header := [], ctx := Context.Background }
  | none => none

/-- The method `(*http.Request).WithContext`: gives back a copy of the request
carrying `ctx`; the receiver is left as it is. -/
def Request.WithContext (r : Request) (ctx : Context) : Request :=
  { r with ctx := ctx }

/-- The fields of `http.Response` the invoker reads.  `Body` is `none` for a
nil body; otherwise it holds what `ioutil.ReadAll` gives on it: the bytes, or
a read error. -/
structure Response where
  StatusCode : Int
  Header : HttpHeader
  Body : Option (Except GoError Bytes)

/-- The transport `*http.Client` with state `σ`: `Do` gives back the response
or the error, and the next state. -/
structure Client (σ : Type) where
  Do : σ → Request → Except GoError Response × σ

/-- The state of the network side: the state of the transport and the requests
handed to `Do` so far. -/
structure Net (σ : Type) where
  transport : σ
  issued : List Request

/-- The call `c.Do(httpReq)`: records the request and runs the transport. -/
def Client.call {σ : Type} (c : Client σ) (n : Net σ) (httpReq : Request) :
    Except GoError Response × Net σ :=
  let out := c.Do n.transport httpReq
  (out.1, { transport := out.2, issued := n.issued ++ [httpReq] })

/-- The four values `invokefunction` returns. -/
structure InvokeResult where
  body : Option Bytes
  statusCode : Int
  header : Option HttpHeader
  err : Option GoError
deriving DecidableEq, Repr

/-- Lines 92-98 of `invokefunction`: the header map built from the optional
`map[string]string`, one single-valued entry per key. -/
def mapOfArrays (headers : GoMap String String) : HttpHeader :=
  headers.foldl (fun acc kv => GoMap.set acc kv.1 [kv.2]) []

/-- Lines 85-98 of `invokefunction`: the request handed to the transport, or
`none` when the function panics before it has one.  The error of
`http.NewRequest` is discarded; on a nil request `httpReq.WithContext(ctx)`
dereferences nil and panics.  The result of `httpReq.WithContext(ctx)` is
discarded by the source. -/
def buildRequest (parse : String → Option String) (ctx : Context) (gwURL : String)
    (reader : Bytes) (headers : Option (GoMap String String)) : Option Request :=
  match NewRequest parse MethodPost gwURL reader with
  | none => none
  | some httpReq =>
    let _ := httpReq.WithContext ctx
    match headers with
    | some h => some { httpReq with Header := mapOfArrays h }
    | none => some httpReq

/-- Lines 99-118 of `invokefunction`: the exchange with the transport and the
values returned from it. -/
def exchange {σ : Type} (c : Client σ) (n : Net σ) (httpReq : Request) : InvokeResult × Net σ :=
  match c.call n httpReq with
  | (Except.error doErr, n') =>
    ({ body := none, statusCode := StatusServiceUnavailable, header := none, err := some doErr }, n')
  | (Except.ok res, n') =>
    match res.Body with
    | some (Except.error _) =>
      ({ body := none, statusCode := StatusServiceUnavailable, header := none, err := none }, n')
    | some (Except.ok bytesOut) =>
      ({ body := some bytesOut, statusCode := res.StatusCode, header := some res.Header,
         err := none }, n')
    | none =>
      ({ body := none, statusCode := res.StatusCode, header := some res.Header, err := none }, n')

/-- The function `invokefunction`: `none` when it panics (before anything is
handed to the transport), the values it returns and the next network state
otherwise. -/
def invokefunction {σ : Type} (parse : String → Option String) (ctx : Context) (c : Client σ)
    (n : Net σ) (gwURL : String) (reader : Bytes) (headers : Option (GoMap String String)) :
    Option (InvokeResult × Net σ) :=
  match buildRequest parse ctx gwURL reader headers with
  | none => none
  | some httpReq => some (exchange c n httpReq)

/-- The struct `InvokerResponse`; a field left out of a literal has its zero
value. -/
structure InvokerResponse where
  Context : Context
  Body : Option Bytes := none
  Header : Option HttpHeader := none
  Status : Int := 0
  Error : Option GoError := none
  Topic : String := ""
  Function : String := ""
deriving DecidableEq, Repr

/-- The struct `Invoker`; the values sent on its channel `Responses` are kept
in `World`. -/
structure Invoker (σ : Type) where
  PrintResponse : Bool
  Client : Client σ
  GatewayURL : String

/-- The function `NewInvoker`. -/
def NewInvoker {σ : Type} (gatewayURL : String) (client : Client σ) (printResponse : Bool) :
    Invoker σ :=
  { PrintResponse := printResponse, Client := client, GatewayURL := gatewayURL }

/-- The resolver `*TopicMap`, used through `Match` only. -/
structure TopicMap where
  Match : String → List String

/-- What a dispatch reads and writes: the network side and the values sent on
the channel `Responses`, oldest first. -/
structure World (σ : Type) where
  net : Net σ
  Responses : List InvokerResponse

/-- The send `i.Responses <- r`. -/
def World.send {σ : Type} (w : World σ) (r : InvokerResponse) : World σ :=
  { w with Responses := w.Responses ++ [r] }

/-- How a call ends: the world it leaves, and whether it ended in a panic
instead of returning. -/
structure Run (σ : Type) where
  world : World σ
  panicked : Bool

/-- The call `fmt.Sprintf("%s/%s", gateway, fn)`. -/
def sprintfURL (gateway fn : String) : String := gateway ++ "/" ++ fn

/-- The body of the loop of `InvokeWithContext` (lines 57-79) for one matched
function: `none` when `invokefunction` panics. -/
def invokeOne {σ : Type} (parse : String → Option String) (i : Invoker σ) (ctx : Context)
    (topic : String) (message : Bytes) (headers : Option (GoMap String String)) (w : World σ)
    (matchedFunction : String) : Option (World σ) :=
  let gwURL := sprintfURL i.GatewayURL matchedFunction
  let reader := message
  match invokefunction parse ctx i.Client w.net gwURL reader headers with
  | none => none
  | some ({ body := body, statusCode := statusCode, header := header, err := doErr }, n') =>
    match doErr with
    | some e =>
      some (World.send { w with net := n' }
        { Context := ctx,
          Error := some (errorsWrap e ("unable to invoke " ++ matchedFunction)) })
    | none =>
      some (World.send { w with net := n' }
        { Context := ctx, Body := body, Status := statusCode, Header := header,
          Function := matchedFunction, Topic := topic })

/-- The loop of `InvokeWithContext` (lines 56-80) over the matched functions
that are left; a panic in the body ends it. -/
def invokeLoop {σ : Type} (parse : String → Option String) (i : Invoker σ) (ctx : Context)
    (topic : String) (message : Bytes) (headers : Option (GoMap String String)) :
    World σ → List String → Run σ
  | w, [] => { world := w, panicked := false }
  | w, matchedFunction :: rest =>
    match invokeOne parse i ctx topic message headers w matchedFunction with
    | none => { world := w, panicked := true }
    | some w' => invokeLoop parse i ctx topic message headers w' rest

/-- The method `Invoker.InvokeWithContext`. -/
def InvokeWithContext {σ : Type} (parse : String → Option String) (i : Invoker σ) (w : World σ)
    (ctx : Context) (topicMap : TopicMap) (topic : String) (message : Bytes)
    (headers : Option (GoMap String String)) : Run σ :=
  let w1 :=
    if message.length = 0 then
      World.send w { Context := ctx, Error := some (fmtErrorf "no message to send") }
    else w
  let matchedFunctions := topicMap.Match topic
  invokeLoop parse i ctx topic message headers w1 matchedFunctions

/-- The method `Invoker.Invoke`. -/
def Invoke {σ : Type} (parse : String → Option String) (i : Invoker σ) (w : World σ)
    (topicMap : TopicMap) (topic : String) (message : Bytes) : Run σ :=
  InvokeWithContext parse i w Context.Background topicMap topic message none

/-! ## Reference descriptions of a dispatch -/

/-- The outcome the loop body publishes for the matched function `f` when
`invokefunction` returned `r` for it. -/
def outcomeOf (ctx : Context) (topic : String) (f : String) (r : InvokeResult) :
    InvokerResponse :=
  match r.err with
  | some e =>
    { Context := ctx, Body := none, Header := none, Status := 0,
      Error := some (GoError.withMessage e ("unable to invoke " ++ f)),
      Topic := "", Function := "" }
  | none =>
    { Context := ctx, Body := r.body, Header := r.header, Status := r.statusCode,
      Error := none, Topic := topic, Function := f }

/-- Every address the dispatch builds for the functions `fs` parses. -/
def allParse (parse : String → Option String) (gateway : String) (fs : List String) : Prop :=
  ∀ f, f ∈ fs → (parse (sprintfURL gateway f)).isSome = true

/-- The network state after `invokefunction` ran for each of the functions
`fs`, one after the other, starting from `n`, up to the first call that
panics. -/
def netAfter {σ : Type} (parse : String → Option String) (i : Invoker σ) (ctx : Context)
    (message : Bytes) (headers : Option (GoMap String String)) : Net σ → List String → Net σ
  | n, [] => n
  | n, f :: fs =>
    match invokefunction parse ctx i.Client n (sprintfURL i.GatewayURL f) message headers with
    | none => n
    | some out => netAfter parse i ctx message headers out.2 fs

/-- The results `invokefunction` returns for each of the functions `fs`, when
run one after the other starting from `n`, up to the first call that
panics. -/
def invokeResults {σ : Type} (parse : String → Option String) (i : Invoker σ) (ctx : Context)
    (message : Bytes) (headers : Option (GoMap String String)) :
    Net σ → List String → List InvokeResult
  | _, [] => []
  | n, f :: fs =>
    match invokefunction parse ctx i.Client n (sprintfURL i.GatewayURL f) message headers with
    | none => []
    | some out => out.1 :: invokeResults parse i ctx message headers out.2 fs

/-- The requests the dispatch builds for the functions `fs`, for those whose
address parses. -/
def requestsFor (parse : String → Option String) (gateway : String) (ctx : Context)
    (message : Bytes) (headers : Option (GoMap String String)) (fs : List String) :
    List Request :=
  fs.filterMap (fun f => buildRequest parse ctx (sprintfURL gateway f) message headers)

/-! ## Concrete parser, transports and inputs -/

/-- The characters of an address as the parser writes them back: a space
becomes `%20`, a `%` must start an escape of two hexadecimal digits, any other
character is kept.  `none` when an escape is not valid. -/
def escapeChars : List Char → Option (List Char)
  | [] => some []
  | '%' :: a :: b :: rest =>
    if "0123456789abcdefABCDEF".toList.contains a && "0123456789abcdefABCDEF".toList.contains b
    then (escapeChars rest).map (fun t => '%' :: a :: b :: t)
    else none
  | '%' :: _ => none
  | ' ' :: rest => (escapeChars rest).map (fun t => '%' :: '2' :: '0' :: t)
  | ch :: rest => (escapeChars rest).map (fun t => ch :: t)

/-- A parser for the concrete inputs below.  It does what `url.Parse` followed
by `URL.String` does on an address `http://host:port/path` whose path is made
of letters and digits together with either spaces or `%`: the address is
refused when a `%` does not start a valid escape (`invalid URL escape`), a
space of the path is written back as `%20`, and the rest is unchanged. -/
def urlParse (addr : String) : Option String :=
  (escapeChars addr.toList).map String.mk

/-- A transport that answers from a script: each call takes the next entry of
the script as its result; once the script is used up every call fails. -/
def scripted : Client (List (Except GoError Response)) where
  Do := fun script _ =>
    match script with
    | [] => (Except.error (GoError.errorString "connection refused"), [])
    | r :: rest => (r, rest)

/-- A transport that honours the context of the request it is handed, as
`http.Client` does: it fails when that context is already cancelled and
answers 200 with the body "ok" otherwise. -/
def contextAware : Client Unit where
  Do := fun s req =>
    if req.ctx.done then (Except.error (GoError.errorString "context canceled"), s)
    else (Except.ok { StatusCode := 200, Header := [], Body := some (Except.ok [111, 107]) }, s)

/-- A response with status 200, one header and the body "ok". -/
def okResponse : Response :=
  { StatusCode := 200, Header := [("Content-Type", ["text/plain"])],
    Body := some (Except.ok [111, 107]) }

/-- A response with status 200 whose body fails to be read. -/
def brokenBodyResponse : Response :=
  { StatusCode := 200, Header := [("Content-Type", ["text/plain"])],
    Body := some (Except.error (GoError.errorString "unexpected EOF")) }

/-- A response with status 204 whose body is read without error and has no
bytes. -/
def emptyBodyResponse : Response :=
  { StatusCode := 204, Header := [("Content-Type", ["text/plain"])],
    Body := some (Except.ok []) }

/-- A context of a caller, not cancelled. -/
def callerCtx : Context := { name := "caller", done := false }

/-- A context of a caller that is already cancelled. -/
def cancelledCtx : Context := { name := "caller", done := true }

/-- An invoker on the scripted transport with gateway `http://gw:8080`. -/
def gwInvoker : Invoker (List (Except GoError Response)) :=
  NewInvoker "http://gw:8080" scripted false

/-- A world in which nothing was issued or published yet, with the given
state of the transport. -/
def freshWorld {σ : Type} (s : σ) : World σ :=
  { net := { transport := s, issued := [] }, Responses := [] }

/-- A resolver that gives the same functions for every topic. -/
def constTopicMap (fs : List String) : TopicMap := { Match := fun _ => fs }

end ConnectorSDK

namespace ConnectorSDK

section Lemmas

variable {σ : Type}

/-! ## Lemmas on `invokefunction` -/

theorem exchange_net (c : Client σ) (n : Net σ) (req : Request) :
    (exchange c n req).2 =
      { transport := (c.Do n.transport req).2, issued := n.issued ++ [req] } := by
  dsimp only [exchange, Client.call]
  generalize c.Do n.transport req = out
  rcases out with ⟨r, s⟩
  cases r with
  | error e => rfl
  | ok res =>
    dsimp only
    rcases hb : res.Body with _ | b
    · rfl
    · cases b <;> rfl

theorem exchange_of_error (c : Client σ) (n : Net σ) (req : Request) (doErr : GoError)
    (h : (c.Do n.transport req).1 = Except.error doErr) :
    (exchange c n req).1 =
      { body := none, statusCode := 503, header := none, err := some doErr } := by
  dsimp only [exchange, Client.call]
  rw [h]
  rfl

theorem exchange_of_ok (c : Client σ) (n : Net σ) (req : Request) (res : Response)
    (h : (c.Do n.transport req).1 = Except.ok res) :
    (exchange c n req).1 =
      match res.Body with
      | some (Except.error _) =>
        { body := none, statusCode := 503, header := none, err := none }
      | some (Except.ok bytesOut) =>
        { body := some bytesOut, statusCode := res.StatusCode, header := some res.Header,
          err := none }
      | none =>
        { body := none, statusCode := res.StatusCode, header := some res.Header,
          err := none } := by
  dsimp only [exchange, Client.call]
  rw [h]
  dsimp only
  rcases res.Body with _ | b
  · rfl
  · cases b <;> rfl

theorem buildRequest_eq (parse : String → Option String) (ctx : Context) (gwURL : String)
    (reader : Bytes) (headers : Option (GoMap String String)) :
    buildRequest parse ctx gwURL reader headers =
      (parse gwURL).map (fun u =>
        { Method := "POST", URL := u, Body := reader,
          Header := (headers.map mapOfArrays).getD [],
          ctx := Context.Background }) := by
  dsimp only [buildRequest, NewRequest]
  cases parse gwURL with
  | none => rfl
  | some u => cases headers <;> rfl

theorem buildRequest_of_parse (parse : String → Option String) (ctx : Context) (gwURL : String)
    (reader : Bytes) (headers : Option (GoMap String String))
    (h : (parse gwURL).isSome = true) :
    ∃ req, buildRequest parse ctx gwURL reader headers = some req := by
  rw [buildRequest_eq]
  rcases Option.isSome_iff_exists.mp h with ⟨u, hu⟩
  rw [hu]
  exact ⟨_, rfl⟩

theorem buildRequest_fields (parse : String → Option String) (ctx : Context) (gwURL : String)
    (reader : Bytes) (headers : Option (GoMap String String)) (req : Request)
    (h : buildRequest parse ctx gwURL reader headers = some req) :
    req.Method = "POST" ∧ parse gwURL = some req.URL ∧ req.Body = reader ∧
      req.ctx = Context.Background ∧
      req.Header = (headers.map mapOfArrays).getD [] := by
  rw [buildRequest_eq] at h
  cases hq : parse gwURL with
  | none => rw [hq] at h; cases h
  | some u =>
    rw [hq] at h
    simp only [Option.map_some', Option.some.injEq] at h
    subst h
    exact ⟨rfl, rfl, rfl, rfl, rfl⟩

theorem invokefunction_of_build (parse : String → Option String) (ctx : Context) (c : Client σ)
    (n : Net σ) (gwURL : String) (reader : Bytes) (headers : Option (GoMap String String))
    (req : Request) (h : buildRequest parse ctx gwURL reader headers = some req) :
    invokefunction parse ctx c n gwURL reader headers = some (exchange c n req) := by
  dsimp only [invokefunction]
  rw [h]

theorem invokefunction_of_not_parse (parse : String → Option String) (ctx : Context)
    (c : Client σ) (n : Net σ) (gwURL : String) (reader : Bytes)
    (headers : Option (GoMap String String)) (h : (parse gwURL).isSome = false) :
    invokefunction parse ctx c n gwURL reader headers = none := by
  have hnone : parse gwURL = none := by
    cases hq : parse gwURL with
    | none => rfl
    | some u => rw [hq] at h; cases h
  dsimp only [invokefunction]
  rw [buildRequest_eq, hnone]
  rfl

theorem invokefunction_issued (parse : String → Option String) (ctx : Context) (c : Client σ)
    (n : Net σ) (gwURL : String) (reader : Bytes) (headers : Option (GoMap String String))
    (req : Request) (h : buildRequest parse ctx gwURL reader headers = some req) :
    (invokefunction parse ctx c n gwURL reader headers).map (fun out => out.2.issued) =
      some (n.issued ++ [req]) := by
  rw [invokefunction_of_build parse ctx c n gwURL reader headers req h, Option.map_some',
    exchange_net]

/-! ## Lemmas on the dispatch loop -/

theorem invokeOne_eq (parse : String → Option String) (i : Invoker σ) (ctx : Context)
    (topic : String) (message : Bytes) (headers : Option (GoMap String String)) (w : World σ)
    (f : String) :
    invokeOne parse i ctx topic message headers w f =
      (invokefunction parse ctx i.Client w.net (sprintfURL i.GatewayURL f) message headers).map
        (fun out =>
          ({ net := out.2, Responses := w.Responses ++ [outcomeOf ctx topic f out.1] } :
            World σ)) := by
  dsimp only [invokeOne]
  generalize invokefunction parse ctx i.Client w.net (sprintfURL i.GatewayURL f) message headers
    = out
  rcases out with _ | ⟨⟨b, s, h, e⟩, n'⟩
  · rfl
  · cases e <;> rfl

theorem invokeLoop_eq (parse : String → Option String) (i : Invoker σ) (ctx : Context)
    (topic : String) (message : Bytes) (headers : Option (GoMap String String))
    (fs : List String) (w : World σ) :
    invokeLoop parse i ctx topic message headers w fs =
      { world :=
          { net := netAfter parse i ctx message headers w.net fs,
            Responses := w.Responses ++
              List.zipWith (outcomeOf ctx topic) fs
                (invokeResults parse i ctx message headers w.net fs) },
        panicked := !fs.all (fun f => (parse (sprintfURL i.GatewayURL f)).isSome) } := by
  induction fs generalizing w with
  | nil => simp [invokeLoop, netAfter, invokeResults]
  | cons f fs ih =>
    rw [invokeLoop, invokeOne_eq]
    rcases hp : (parse (sprintfURL i.GatewayURL f)).isSome with _ | _
    · have hnone := invokefunction_of_not_parse parse ctx i.Client w.net
        (sprintfURL i.GatewayURL f) message headers hp
      simp [netAfter, invokeResults, hnone, hp]
    · obtain ⟨req, hreq⟩ := buildRequest_of_parse parse ctx (sprintfURL i.GatewayURL f) message
        headers hp
      have hsome := invokefunction_of_build parse ctx i.Client w.net
        (sprintfURL i.GatewayURL f) message headers req hreq
      simp [netAfter, invokeResults, hsome, hp, ih]

theorem all_of_allParse (parse : String → Option String) (gateway : String) (fs : List String)
    (h : allParse parse gateway fs) :
    fs.all (fun f => (parse (sprintfURL gateway f)).isSome) = true := by
  rw [List.all_eq_true]
  exact fun f hf => h f hf

theorem allParse_tail (parse : String → Option String) (gateway : String) (f : String)
    (fs : List String) (h : allParse parse gateway (f :: fs)) : allParse parse gateway fs :=
  fun g hg => h g (List.mem_cons_of_mem f hg)

theorem InvokeWithContext_eq (parse : String → Option String) (i : Invoker σ) (w : World σ)
    (ctx : Context) (topicMap : TopicMap) (topic : String) (message : Bytes)
    (headers : Option (GoMap String String)) :
    InvokeWithContext parse i w ctx topicMap topic message headers =
      { world :=
          { net := netAfter parse i ctx message headers w.net (topicMap.Match topic),
            Responses := w.Responses ++
              ((if message.length = 0 then
                  [{ Context := ctx, Error := some (GoError.errorString "no message to send") }]
                else []) ++
              List.zipWith (outcomeOf ctx topic) (topicMap.Match topic)
                (invokeResults parse i ctx message headers w.net (topicMap.Match topic))) },
        panicked :=
          !(topicMap.Match topic).all (fun f => (parse (sprintfURL i.GatewayURL f)).isSome) } := by
  dsimp only [InvokeWithContext]
  rw [invokeLoop_eq]
  by_cases hm : message.length = 0
  · simp [hm, World.send, fmtErrorf]
  · simp [hm]

theorem netAfter_issued (parse : String → Option String) (i : Invoker σ) (ctx : Context)
    (message : Bytes) (headers : Option (GoMap String String)) (fs : List String) (n : Net σ)
    (hp : allParse parse i.GatewayURL fs) :
    (netAfter parse i ctx message headers n fs).issued =
      n.issued ++ requestsFor parse i.GatewayURL ctx message headers fs := by
  induction fs generalizing n with
  | nil => simp [netAfter, requestsFor]
  | cons f fs ih =>
    obtain ⟨req, hreq⟩ := buildRequest_of_parse parse ctx (sprintfURL i.GatewayURL f) message
      headers (hp f (by simp))
    have hsome := invokefunction_of_build parse ctx i.Client n
      (sprintfURL i.GatewayURL f) message headers req hreq
    rw [netAfter, hsome]
    dsimp only
    rw [ih (exchange i.Client n req).2 (allParse_tail _ _ _ _ hp), exchange_net, requestsFor,
      requestsFor]
    simp only [List.filterMap_cons, hreq]
    simp

theorem requestsFor_map (parse : String → Option String) (gateway : String) (ctx : Context)
    (message : Bytes) (headers : Option (GoMap String String)) (fs : List String)
    (hp : allParse parse gateway fs) :
    (requestsFor parse gateway ctx message headers fs).map
        (fun r => (r.Method, some r.URL, r.Body)) =
      fs.map (fun f => ("POST", parse (gateway ++ "/" ++ f), message)) := by
  induction fs with
  | nil => rfl
  | cons f fs ih =>
    have ih' := ih (allParse_tail _ _ _ _ hp)
    obtain ⟨req, hreq⟩ := buildRequest_of_parse parse ctx (sprintfURL gateway f) message
      headers (hp f (by simp))
    obtain ⟨h1, h2, h3⟩ := buildRequest_fields parse ctx _ message headers req hreq
    have hu' : parse (gateway ++ "/" ++ f) = some req.URL := h2
    rw [requestsFor] at ih' ⊢
    simp only [List.filterMap_cons, hreq, List.map_cons, ih', h1, h3, hu']

theorem requestsFor_length (parse : String → Option String) (gateway : String) (ctx : Context)
    (message : Bytes) (headers : Option (GoMap String String)) (fs : List String)
    (hp : allParse parse gateway fs) :
    (requestsFor parse gateway ctx message headers fs).length = fs.length := by
  have h := congrArg List.length (requestsFor_map parse gateway ctx message headers fs hp)
  simpa using h

theorem invokeResults_length (parse : String → Option String) (i : Invoker σ) (ctx : Context)
    (message : Bytes) (headers : Option (GoMap String String)) (fs : List String) (n : Net σ)
    (hp : allParse parse i.GatewayURL fs) :
    (invokeResults parse i ctx message headers n fs).length = fs.length := by
  induction fs generalizing n with
  | nil => rfl
  | cons f fs ih =>
    obtain ⟨req, hreq⟩ := buildRequest_of_parse parse ctx (sprintfURL i.GatewayURL f) message
      headers (hp f (by simp))
    have hsome := invokefunction_of_build parse ctx i.Client n
      (sprintfURL i.GatewayURL f) message headers req hreq
    simp [invokeResults, hsome, ih _ (allParse_tail _ _ _ _ hp)]

theorem invokeResults_getElem? (parse : String → Option String) (i : Invoker σ) (ctx : Context)
    (message : Bytes) (headers : Option (GoMap String String)) (fs : List String) (n : Net σ)
    (k : Nat) (hp : allParse parse i.GatewayURL (fs.take (k + 1))) :
    (invokeResults parse i ctx message headers n fs)[k]? =
      fs[k]?.bind (fun f =>
        (invokefunction parse ctx i.Client (netAfter parse i ctx message headers n (fs.take k))
          (sprintfURL i.GatewayURL f) message headers).map Prod.fst) := by
  induction fs generalizing n k with
  | nil => simp [invokeResults]
  | cons f fs ih =>
    obtain ⟨req, hreq⟩ := buildRequest_of_parse parse ctx (sprintfURL i.GatewayURL f) message
      headers (hp f (by simp))
    have hsome := invokefunction_of_build parse ctx i.Client n
      (sprintfURL i.GatewayURL f) message headers req hreq
    cases k with
    | zero => simp [invokeResults, netAfter, hsome]
    | succ k =>
      have hp' : allParse parse i.GatewayURL (fs.take (k + 1)) :=
        fun g hg => hp g (by rw [List.take_succ_cons]; exact List.mem_cons_of_mem f hg)
      simp [invokeResults, netAfter, hsome, ih _ _ hp']

theorem zipWith_outcomeOf_length_le (ctx : Context) (topic : String) (fs : List String)
    (rs : List InvokeResult) :
    (List.zipWith (outcomeOf ctx topic) fs rs).length ≤ fs.length := by
  rw [List.length_zipWith]
  exact Nat.min_le_left _ _

theorem zipWith_outcomeOf_getElem? (ctx : Context) (topic : String) (fs : List String)
    (rs : List InvokeResult) (k : Nat) (f : String) (r : InvokeResult)
    (hf : fs[k]? = some f) (hr : rs[k]? = some r) :
    (List.zipWith (outcomeOf ctx topic) fs rs)[k]? = some (outcomeOf ctx topic f r) := by
  simp [List.getElem?_zipWith, hf, hr]

/-! ## Lemmas on the header map -/

theorem GoMap.set_of_not_mem {α β : Type} [DecidableEq α] (m : GoMap α β) (k : α) (v : β)
    (h : k ∉ GoMap.keys m) : GoMap.set m k v = m ++ [(k, v)] := by
  induction m with
  | nil => rfl
  | cons e rest ih =>
    rcases e with ⟨k', v'⟩
    simp only [GoMap.keys, List.map_cons, List.mem_cons, not_or] at h
    have hne : ¬ k' = k := fun hk => h.1 hk.symm
    simp only [GoMap.set, hne, if_false, List.cons_append]
    rw [ih h.2]

theorem GoMap.get?_map_snd {α β γ : Type} [DecidableEq α] (m : GoMap α β) (g : β → γ) (k : α) :
    GoMap.get? (m.map (fun kv => (kv.1, g kv.2))) k = (GoMap.get? m k).map g := by
  induction m with
  | nil => rfl
  | cons e rest ih =>
    rcases e with ⟨k', v'⟩
    by_cases hk : k' = k
    · simp [GoMap.get?, hk]
    · simp [GoMap.get?, hk, ih]

theorem GoMap.get?_eq_none_of_not_mem {α β : Type} [DecidableEq α] (m : GoMap α β) (k : α)
    (h : k ∉ GoMap.keys m) : GoMap.get? m k = none := by
  induction m with
  | nil => rfl
  | cons e rest ih =>
    rcases e with ⟨k', v'⟩
    simp only [GoMap.keys, List.map_cons, List.mem_cons, not_or] at h
    have hne : ¬ k' = k := fun hk => h.1 hk.symm
    simp only [GoMap.get?, hne, if_false]
    exact ih h.2

theorem foldl_set_of_nodup (h : GoMap String String) (acc : HttpHeader)
    (hnd : (GoMap.keys h).Nodup) (hdisj : ∀ k, k ∈ GoMap.keys h → k ∉ GoMap.keys acc) :
    h.foldl (fun acc kv => GoMap.set acc kv.1 [kv.2]) acc =
      acc ++ h.map (fun kv => (kv.1, [kv.2])) := by
  induction h generalizing acc with
  | nil => simp
  | cons e rest ih =>
    rcases e with ⟨k, v⟩
    simp only [GoMap.keys, List.map_cons, List.nodup_cons] at hnd
    have hk : k ∉ GoMap.keys acc := hdisj k (by simp [GoMap.keys])
    rw [List.foldl_cons, GoMap.set_of_not_mem acc k [v] hk, ih _ hnd.2]
    · simp
    · intro k' hk' hmem
      simp only [GoMap.keys, List.map_append, List.map_cons, List.map_nil, List.mem_append,
        List.mem_singleton] at hmem
      rcases hmem with hmem | hmem
      · exact hdisj k' (by simp only [GoMap.keys, List.map_cons, List.mem_cons]; exact Or.inr hk') hmem
      · exact hnd.1 (hmem ▸ hk')

theorem mapOfArrays_of_nodup (h : GoMap String String) (hnd : (GoMap.keys h).Nodup) :
    mapOfArrays h = h.map (fun kv => (kv.1, [kv.2])) := by
  unfold mapOfArrays
  rw [foldl_set_of_nodup h [] hnd (by intro k _; simp [GoMap.keys])]
  simp

/-! ## Further lemmas on the published outcomes -/

theorem zipWith_outcomeOf_length (ctx : Context) (topic : String) (fs : List String)
    (rs : List InvokeResult) (h : rs.length = fs.length) :
    (List.zipWith (outcomeOf ctx topic) fs rs).length = fs.length := by
  simp [List.length_zipWith, h]

theorem zipWith_outcomeOf_of_ok (ctx : Context) (topic : String) (fs : List String)
    (rs : List InvokeResult) (hok : ∀ r, r ∈ rs → r.err = none) :
    List.zipWith (outcomeOf ctx topic) fs rs =
      List.zipWith (fun f r =>
        ({ Context := ctx, Body := r.body, Header := r.header, Status := r.statusCode,
           Error := none, Topic := topic, Function := f } : InvokerResponse)) fs rs := by
  induction fs generalizing rs with
  | nil => simp
  | cons f fs ih =>
    cases rs with
    | nil => simp
    | cons r rs =>
      have hr : r.err = none := hok r (by simp)
      simp only [List.zipWith_cons_cons]
      rw [ih rs (fun r' hr' => hok r' (by simp [hr'])), outcomeOf, hr]

theorem map_Function_zipWith (ctx : Context) (topic : String) (fs : List String)
    (rs : List InvokeResult) (h : rs.length = fs.length) :
    (List.zipWith (fun f r =>
        ({ Context := ctx, Body := r.body, Header := r.header, Status := r.statusCode,
           Error := none, Topic := topic, Function := f } : InvokerResponse)) fs rs).map
      (fun o => o.Function) = fs := by
  induction fs generalizing rs with
  | nil => simp
  | cons f fs ih =>
    cases rs with
    | nil => simp at h
    | cons r rs =>
      simp only [List.length_cons, Nat.add_right_cancel_iff] at h
      simp [ih rs h]

end Lemmas

end ConnectorSDK

namespace ConnectorSDK

/-! ## The claims -/

/-- C1: the code does not publish N outcomes for every resolver output.  With
resolver output "%zz", f2 on gateway http://gw:8080 and a non-empty payload,
the address built for "%zz" does not parse, invokefunction panics on the nil
request before anything is handed to the transport, and the dispatch ends
with no outcome published and f2 never invoked, where the claim has two
outcomes. -/
theorem InvokeWithContext_unparsed_address_panics :
    urlParse (sprintfURL "http://gw:8080" "%zz") = none ∧
    (constTopicMap ["%zz", "f2"]).Match "orders" = ["%zz", "f2"] ∧
    (InvokeWithContext urlParse gwInvoker
        (freshWorld [Except.ok okResponse, Except.ok okResponse]) callerCtx
        (constTopicMap ["%zz", "f2"]) "orders" [1] none).panicked = true ∧
    (InvokeWithContext urlParse gwInvoker
        (freshWorld [Except.ok okResponse, Except.ok okResponse]) callerCtx
        (constTopicMap ["%zz", "f2"]) "orders" [1] none).world.Responses = [] ∧
    (InvokeWithContext urlParse gwInvoker
        (freshWorld [Except.ok okResponse, Except.ok okResponse]) callerCtx
        (constTopicMap ["%zz", "f2"]) "orders" [1] none).world.net.issued = [] := by
  decide

/-- C2: with an empty payload the outcome "no message to send" is published
first, but the call does not go on to invoke every resolved function.  With
resolver output "%zz", f2 the address built for "%zz" does not parse,
invokefunction panics, and the dispatch ends with the first outcome alone: no
request is issued and nothing is published for "%zz" or f2. -/
theorem InvokeWithContext_empty_payload_panics :
    (InvokeWithContext urlParse gwInvoker
        (freshWorld [Except.ok okResponse, Except.ok okResponse]) callerCtx
        (constTopicMap ["%zz", "f2"]) "orders" [] none).world.Responses =
      [{ Context := callerCtx, Body := none, Header := none, Status := 0,
         Error := some (GoError.errorString "no message to send"),
         Topic := "", Function := "" }] ∧
    (InvokeWithContext urlParse gwInvoker
        (freshWorld [Except.ok okResponse, Except.ok okResponse]) callerCtx
        (constTopicMap ["%zz", "f2"]) "orders" [] none).panicked = true ∧
    (InvokeWithContext urlParse gwInvoker
        (freshWorld [Except.ok okResponse, Except.ok okResponse]) callerCtx
        (constTopicMap ["%zz", "f2"]) "orders" [] none).world.net.issued = [] := by
  decide

/-- C3: for every non-empty payload and every resolver output f1, ..., fn for
which every invocation is made (each address parses) and returns without
error, the call returns and the outcomes published by InvokeWithContext are,
in resolver order, one per fi, with Function = fi, Topic = the dispatched
topic, Context = the dispatch context, no error, and the body, status code and
headers invokefunction returned for fi; the Function fields of the published
outcomes are the resolver output in its order. -/
theorem InvokeWithContext_all_succeed {σ : Type} (parse : String → Option String)
    (i : Invoker σ) (w : World σ) (ctx : Context) (topicMap : TopicMap) (topic : String)
    (message : Bytes) (headers : Option (GoMap String String)) (hm : message ≠ [])
    (hp : allParse parse i.GatewayURL (topicMap.Match topic))
    (hok : ∀ r, r ∈ invokeResults parse i ctx message headers w.net (topicMap.Match topic) →
      r.err = none) :
    ∃ outs : List InvokerResponse,
      (InvokeWithContext parse i w ctx topicMap topic message headers).world.Responses =
        w.Responses ++ outs ∧
      outs = List.zipWith (fun f r =>
          ({ Context := ctx, Body := r.body, Header := r.header, Status := r.statusCode,
             Error := none, Topic := topic, Function := f } : InvokerResponse))
        (topicMap.Match topic)
        (invokeResults parse i ctx message headers w.net (topicMap.Match topic)) ∧
      outs.length = (topicMap.Match topic).length ∧
      outs.map (fun o => o.Function) = topicMap.Match topic ∧
      (InvokeWithContext parse i w ctx topicMap topic message headers).panicked = false := by
  have hlen : message.length ≠ 0 := fun h => hm (List.length_eq_zero.mp h)
  refine ⟨_, ?_, rfl, ?_,
    map_Function_zipWith _ _ _ _ (invokeResults_length _ _ _ _ _ _ _ hp), ?_⟩
  · rw [InvokeWithContext_eq, zipWith_outcomeOf_of_ok _ _ _ _ hok]
    simp [hlen]
  · simp [List.length_zipWith, invokeResults_length _ _ _ _ _ _ _ hp]
  · rw [InvokeWithContext_eq]
    simp [all_of_allParse _ _ _ hp]

/-- Witness of C3: resolver output f1, f2, f3 with three successful exchanges
gives three outcomes whose Function fields are f1, f2, f3 in that order. -/
theorem InvokeWithContext_all_succeed_witness :
    (InvokeWithContext urlParse gwInvoker
        (freshWorld [Except.ok okResponse, Except.ok emptyBodyResponse, Except.ok okResponse])
        callerCtx (constTopicMap ["f1", "f2", "f3"]) "orders" [1] none).world.Responses.map
      (fun o => (o.Function, o.Topic, o.Status, o.Error)) =
      [("f1", "orders", 200, none), ("f2", "orders", 204, none), ("f3", "orders", 200, none)] := by
  obtain ⟨outs, h1, h2, _, _⟩ :=
    InvokeWithContext_all_succeed urlParse gwInvoker
      (freshWorld [Except.ok okResponse, Except.ok emptyBodyResponse, Except.ok okResponse])
      callerCtx (constTopicMap ["f1", "f2", "f3"]) "orders" [1] none (by decide)
      (by unfold allParse; decide) (by decide)
  rw [h1, h2]
  decide

/-- C5: the request invokefunction hands to the transport does not carry the
context it was given.  Called with a context that is already cancelled, on a
transport that fails for a request whose context is cancelled, invokefunction
hands over a request with the background context, the exchange succeeds, and
InvokeWithContext publishes a success outcome with status 200 for the target
and no transport error. -/
theorem invokefunction_context_not_carried :
    cancelledCtx.done = true ∧
    (invokefunction urlParse cancelledCtx contextAware { transport := (), issued := [] }
        "http://gw:8080/echo" [1] none).map (fun out => out.2.issued.map (fun r => r.ctx)) =
      some [Context.Background] ∧
    Context.Background ≠ cancelledCtx ∧
    (invokefunction urlParse cancelledCtx contextAware { transport := (), issued := [] }
        "http://gw:8080/echo" [1] none).map Prod.fst =
      some { body := some [111, 107], statusCode := 200, header := some [], err := none } ∧
    (InvokeWithContext urlParse (NewInvoker "http://gw:8080" contextAware false) (freshWorld ())
        cancelledCtx (constTopicMap ["echo"]) "orders" [1] none).world.Responses =
      [{ Context := cancelledCtx, Body := some [111, 107], Header := some [], Status := 200,
         Error := none, Topic := "orders", Function := "echo" }] := by
  decide

/-- C6, as stated, fails: for a response with status 200 and one header whose
body cannot be read, invokefunction does not return the status and headers of
the response; it returns status 503 and no headers. -/
theorem invokefunction_read_failure_counterexample :
    (buildRequest urlParse callerCtx "http://gw:8080/echo" [1] none).map
      (fun req => ((scripted.Do [Except.ok brokenBodyResponse] req).1.toOption.map
        (fun res => (res.StatusCode, res.Header, res.Body)))) =
      some (some (200, [("Content-Type", ["text/plain"])],
        some (Except.error (GoError.errorString "unexpected EOF")))) ∧
    (invokefunction urlParse callerCtx scripted
        { transport := [Except.ok brokenBodyResponse], issued := [] }
        "http://gw:8080/echo" [1] none).map Prod.fst =
      some { body := none, statusCode := 503, header := none, err := none } ∧
    (invokefunction urlParse callerCtx scripted
        { transport := [Except.ok brokenBodyResponse], issued := [] }
        "http://gw:8080/echo" [1] none).map Prod.fst ≠
      some { body := none, statusCode := brokenBodyResponse.StatusCode,
             header := some brokenBodyResponse.Header, err := none } := by
  refine ⟨by rfl, by rfl, by decide⟩

/-- C6, amended: for every response the transport returns without error whose
body then fails to be read, invokefunction returns no body, no headers, the
status code 503 and no error; the read error is discarded, not propagated. -/
theorem invokefunction_read_failure {σ : Type} (parse : String → Option String) (ctx : Context)
    (c : Client σ) (n : Net σ) (gwURL : String) (reader : Bytes)
    (headers : Option (GoMap String String)) (req : Request) (res : Response)
    (readErr : GoError)
    (hreq : buildRequest parse ctx gwURL reader headers = some req)
    (hdo : (c.Do n.transport req).1 = Except.ok res)
    (hread : res.Body = some (Except.error readErr)) :
    (invokefunction parse ctx c n gwURL reader headers).map Prod.fst =
      some { body := none, statusCode := 503, header := none, err := none } := by
  rw [invokefunction_of_build parse ctx c n gwURL reader headers req hreq, Option.map_some',
    exchange_of_ok c n req res hdo, hread]

/-- Witness of the amended C6 on a response with status 200 whose body cannot
be read. -/
theorem invokefunction_read_failure_witness :
    (invokefunction urlParse callerCtx scripted
        { transport := [Except.ok brokenBodyResponse], issued := [] }
        "http://gw:8080/echo" [1] none).map Prod.fst =
      some { body := none, statusCode := 503, header := none, err := none } :=
  invokefunction_read_failure urlParse callerCtx scripted
    { transport := [Except.ok brokenBodyResponse], issued := [] } "http://gw:8080/echo" [1] none
    { Method := "POST", URL := "http://gw:8080/echo", Body := [1], Header := [],
      ctx := Context.Background }
    brokenBodyResponse (GoError.errorString "unexpected EOF") (by decide) rfl rfl

/-- C7: invokefunction hands the request it built to the transport; when the
transport returns an error it returns no body, no headers, status code 503 and
that same error; and it returns a nil error exactly when the transport
returned no error. -/
theorem invokefunction_transport_failure {σ : Type} (parse : String → Option String)
    (ctx : Context) (c : Client σ) (n : Net σ) (gwURL : String) (reader : Bytes)
    (headers : Option (GoMap String String)) (req : Request)
    (hreq : buildRequest parse ctx gwURL reader headers = some req) :
    ∃ out : InvokeResult × Net σ,
      invokefunction parse ctx c n gwURL reader headers = some out ∧
      out.2.issued = n.issued ++ [req] ∧
      (∀ doErr : GoError,
        (c.Do n.transport req).1 = Except.error doErr →
        out.1 = { body := none, statusCode := 503, header := none, err := some doErr }) ∧
      (out.1.err = none ↔ ∃ res : Response, (c.Do n.transport req).1 = Except.ok res) := by
  refine ⟨exchange c n req, invokefunction_of_build parse ctx c n gwURL reader headers req hreq,
    by rw [exchange_net], fun doErr h => exchange_of_error _ _ _ _ h, ?_⟩
  rcases hdo : (c.Do n.transport req).1 with e | res
  · rw [exchange_of_error c n req e hdo]
    simp
  · rw [exchange_of_ok c n req res hdo]
    rcases res.Body with _ | b
    · simp
    · cases b <;> simp

/-- Witness of C7: on a transport that refuses the connection invokefunction
returns status 503 and the error of the transport. -/
theorem invokefunction_transport_failure_witness :
    (invokefunction urlParse callerCtx scripted { transport := [], issued := [] }
        "http://gw:8080/echo" [1] none).map Prod.fst =
      some { body := none, statusCode := 503, header := none,
             err := some (GoError.errorString "connection refused") } := by
  obtain ⟨out, h1, _, h3, _⟩ :=
    invokefunction_transport_failure urlParse callerCtx scripted
      { transport := [], issued := [] } "http://gw:8080/echo" [1] none
      { Method := "POST", URL := "http://gw:8080/echo", Body := [1], Header := [],
        ctx := Context.Background } (by decide)
  rw [h1, Option.map_some', h3 (GoError.errorString "connection refused") rfl]

/-- C4, as stated, fails: with resolver output f1, f2, f1 failing in the
transport and f2 succeeding, and an empty payload, three outcomes are
published, not exactly two: the outcome "no message to send" comes before the
error for f1 and the success for f2. -/
theorem InvokeWithContext_failure_continues_counterexample :
    (InvokeWithContext urlParse gwInvoker
        (freshWorld [Except.error (GoError.errorString "connection refused"), Except.ok okResponse])
        callerCtx (constTopicMap ["f1", "f2"]) "orders" [] none).world.Responses =
      [{ Context := callerCtx, Error := some (GoError.errorString "no message to send") },
       { Context := callerCtx,
         Error := some (GoError.withMessage (GoError.errorString "connection refused")
           "unable to invoke f1") },
       { Context := callerCtx, Body := some [111, 107],
         Header := some [("Content-Type", ["text/plain"])], Status := 200,
         Topic := "orders", Function := "f2" }] ∧
    (InvokeWithContext urlParse gwInvoker
        (freshWorld [Except.error (GoError.errorString "connection refused"), Except.ok okResponse])
        callerCtx (constTopicMap ["f1", "f2"]) "orders" [] none).world.Responses.length ≠ 2 := by
  decide

/-- C4, amended: for every resolver output whose addresses all parse, a
failing target never aborts the dispatch of the remaining targets.  For every
position k whose invocation returns an error e, InvokeWithContext publishes at
position k (after the outcome for an empty payload, if there is one) an
outcome whose error wraps e with the message "unable to invoke fk" and whose
topic and function fields are blank; every target, before or after a failing
one, is invoked once and has its outcome published at its position, and the
call returns.  With resolver output f1, f2, a non-empty payload, f1 failing
and f2 succeeding, exactly two outcomes are published: the error for f1, then
the status, body and headers of f2 with no error. -/
theorem InvokeWithContext_failure_continues {σ : Type} (parse : String → Option String)
    (i : Invoker σ) (w : World σ) (ctx : Context) (topicMap : TopicMap) (topic : String)
    (message : Bytes) (headers : Option (GoMap String String))
    (hp : allParse parse i.GatewayURL (topicMap.Match topic)) :
    ∃ pre outs : List InvokerResponse,
      (InvokeWithContext parse i w ctx topicMap topic message headers).world.Responses =
        w.Responses ++ pre ++ outs ∧
      pre.length = (if message.length = 0 then 1 else 0) ∧
      outs.length = (topicMap.Match topic).length ∧
      (InvokeWithContext parse i w ctx topicMap topic message headers).world.net.issued.length =
        w.net.issued.length + (topicMap.Match topic).length ∧
      (InvokeWithContext parse i w ctx topicMap topic message headers).panicked = false ∧
      (∀ (k : Nat) (f : String) (r : InvokeResult) (e : GoError),
        (topicMap.Match topic)[k]? = some f →
        (invokeResults parse i ctx message headers w.net (topicMap.Match topic))[k]? = some r →
        r.err = some e →
        outs[k]? = some
          { Context := ctx, Body := none, Header := none, Status := 0,
            Error := some (errorsWrap e ("unable to invoke " ++ f)),
            Topic := "", Function := "" } ∧
        (errorsWrap e ("unable to invoke " ++ f)).Error =
          "unable to invoke " ++ f ++ ": " ++ e.Error) ∧
      (∀ (k : Nat) (f : String) (r : InvokeResult),
        (topicMap.Match topic)[k]? = some f →
        (invokeResults parse i ctx message headers w.net (topicMap.Match topic))[k]? = some r →
        r.err = none →
        outs[k]? = some
          { Context := ctx, Body := r.body, Header := r.header, Status := r.statusCode,
            Error := none, Topic := topic, Function := f }) ∧
      (∀ (f1 f2 : String) (r1 r2 : InvokeResult) (e : GoError),
        message ≠ [] → topicMap.Match topic = [f1, f2] →
        invokeResults parse i ctx message headers w.net [f1, f2] = [r1, r2] →
        r1.err = some e → r2.err = none →
        (InvokeWithContext parse i w ctx topicMap topic message headers).world.Responses =
          w.Responses ++
            [{ Context := ctx, Body := none, Header := none, Status := 0,
               Error := some (errorsWrap e ("unable to invoke " ++ f1)),
               Topic := "", Function := "" },
             { Context := ctx, Body := r2.body, Header := r2.header, Status := r2.statusCode,
               Error := none, Topic := topic, Function := f2 }]) := by
  refine ⟨if message.length = 0 then
      [{ Context := ctx, Error := some (GoError.errorString "no message to send") }] else [],
    List.zipWith (outcomeOf ctx topic) (topicMap.Match topic)
      (invokeResults parse i ctx message headers w.net (topicMap.Match topic)),
    ?_, ?_, ?_, ?_, ?_, ?_, ?_, ?_⟩
  · rw [InvokeWithContext_eq, List.append_assoc]
  · by_cases hm : message.length = 0 <;> simp [hm]
  · exact zipWith_outcomeOf_length _ _ _ _ (invokeResults_length _ _ _ _ _ _ _ hp)
  · rw [InvokeWithContext_eq]
    simp [netAfter_issued _ _ _ _ _ _ _ hp, requestsFor_length _ _ _ _ _ _ hp]
  · rw [InvokeWithContext_eq]
    simp [all_of_allParse _ _ _ hp]
  · intro k f r e hf hr he
    refine ⟨?_, rfl⟩
    rw [zipWith_outcomeOf_getElem? ctx topic _ _ k f r hf hr, outcomeOf, he]
    rfl
  · intro k f r hf hr he
    rw [zipWith_outcomeOf_getElem? ctx topic _ _ k f r hf hr, outcomeOf, he]
  · intro f1 f2 r1 r2 e hm hfs hrs he1 he2
    have hlen : message.length ≠ 0 := fun h => hm (List.length_eq_zero.mp h)
    rw [InvokeWithContext_eq, hfs, hrs]
    simp [hlen, outcomeOf, he1, he2, errorsWrap]

/-- Witness of the amended C4: resolver output f1, f2 with a non-empty payload,
where the exchange for f1 fails and the one for f2 succeeds, publishes exactly
two outcomes, the wrapped error for f1 and then the status, body and headers
of f2. -/
theorem InvokeWithContext_failure_continues_witness :
    (InvokeWithContext urlParse gwInvoker
        (freshWorld [Except.error (GoError.errorString "connection refused"), Except.ok okResponse])
        callerCtx (constTopicMap ["f1", "f2"]) "orders" [1] none).world.Responses =
      [{ Context := callerCtx,
         Error := some (GoError.withMessage (GoError.errorString "connection refused")
           "unable to invoke f1") },
       { Context := callerCtx, Body := some [111, 107],
         Header := some [("Content-Type", ["text/plain"])], Status := 200,
         Topic := "orders", Function := "f2" }] := by
  obtain ⟨pre, outs, _, _, _, _, _, _, _, h⟩ :=
    InvokeWithContext_failure_continues urlParse gwInvoker
      (freshWorld [Except.error (GoError.errorString "connection refused"), Except.ok okResponse])
      callerCtx (constTopicMap ["f1", "f2"]) "orders" [1] none (by unfold allParse; decide)
  rw [h "f1" "f2"
    { body := none, statusCode := 503, header := none,
      err := some (GoError.errorString "connection refused") }
    { body := some [111, 107], statusCode := 200,
      header := some [("Content-Type", ["text/plain"])], err := none }
    (GoError.errorString "connection refused") (by decide) rfl (by decide) rfl rfl]
  decide

/-- C8, as stated, fails: the address of the request is not always the
gateway URL, "/" and the function identifier.  For the identifier "a b" on
gateway http://gw:8080 the request handed to the transport has the address
http://gw:8080/a%20b, the parsed and re-encoded form of http://gw:8080/a b. -/
theorem InvokeWithContext_requests_counterexample :
    (InvokeWithContext urlParse gwInvoker (freshWorld [Except.ok okResponse]) callerCtx
        (constTopicMap ["a b"]) "orders" [1] none).world.net.issued.map (fun r => r.URL) =
      ["http://gw:8080/a%20b"] ∧
    (InvokeWithContext urlParse gwInvoker (freshWorld [Except.ok okResponse]) callerCtx
        (constTopicMap ["a b"]) "orders" [1] none).world.net.issued.map (fun r => r.URL) ≠
      ["http://gw:8080" ++ "/" ++ "a b"] := by
  decide

/-- C8, amended: for every gateway base URL, payload and resolver output
f1, ..., fn whose addresses all parse, the requests InvokeWithContext hands to
the transport are exactly n requests, one per fi and in resolver order, each a
POST whose address is the parsed form of the gateway URL followed by a single
"/" followed by fi and whose body is the payload, whatever the transport
answers, and the call returns; gateway base http://gw:8080 and function
identifier echo give the address http://gw:8080/echo. -/
theorem InvokeWithContext_requests {σ : Type} (parse : String → Option String) (i : Invoker σ)
    (w : World σ) (ctx : Context) (topicMap : TopicMap) (topic : String) (message : Bytes)
    (headers : Option (GoMap String String))
    (hp : allParse parse i.GatewayURL (topicMap.Match topic)) :
    ∃ reqs : List Request,
      (InvokeWithContext parse i w ctx topicMap topic message headers).world.net.issued =
        w.net.issued ++ reqs ∧
      reqs.length = (topicMap.Match topic).length ∧
      reqs.map (fun r => (r.Method, some r.URL, r.Body)) =
        (topicMap.Match topic).map
          (fun f => ("POST", parse (i.GatewayURL ++ "/" ++ f), message)) ∧
      (InvokeWithContext parse i w ctx topicMap topic message headers).panicked = false ∧
      urlParse (sprintfURL "http://gw:8080" "echo") = some "http://gw:8080/echo" := by
  refine ⟨requestsFor parse i.GatewayURL ctx message headers (topicMap.Match topic),
    ?_, requestsFor_length _ _ _ _ _ _ hp, requestsFor_map _ _ _ _ _ _ hp, ?_, by decide⟩
  · rw [InvokeWithContext_eq]
    exact netAfter_issued _ _ _ _ _ _ _ hp
  · rw [InvokeWithContext_eq]
    simp [all_of_allParse _ _ _ hp]

/-- Witness of the amended C8: with resolver output echo, f2 on gateway
http://gw:8080, where the exchange for echo fails, two POST requests with the
payload are handed to the transport, for http://gw:8080/echo and then
http://gw:8080/f2. -/
theorem InvokeWithContext_requests_witness :
    (InvokeWithContext urlParse gwInvoker
        (freshWorld [Except.error (GoError.errorString "connection refused"), Except.ok okResponse])
        callerCtx (constTopicMap ["echo", "f2"]) "orders" [7] none).world.net.issued.map
      (fun r => (r.Method, some r.URL, r.Body)) =
      [("POST", some "http://gw:8080/echo", [7]), ("POST", some "http://gw:8080/f2", [7])] := by
  obtain ⟨reqs, h1, _, h3, _⟩ :=
    InvokeWithContext_requests urlParse gwInvoker
      (freshWorld [Except.error (GoError.errorString "connection refused"), Except.ok okResponse])
      callerCtx (constTopicMap ["echo", "f2"]) "orders" [7] none (by unfold allParse; decide)
  rw [h1, List.map_append, h3]
  decide

/-- C9: for every supplied header mapping h (a map, so with distinct keys),
the request invokefunction hands to the transport has a header map with
distinct keys that holds, for every key k of h, exactly the one value h[k],
and holds nothing for a key that is not in h; given X-Trace: abc the request
carries X-Trace with the single value abc.  When no mapping is supplied the
header map is the one of the freshly built request. -/
theorem invokefunction_request_headers {σ : Type} (parse : String → Option String)
    (ctx : Context) (c : Client σ) (n : Net σ) (gwURL : String) (reader : Bytes)
    (hp : (parse gwURL).isSome = true) :
    (∀ h : GoMap String String, (GoMap.keys h).Nodup →
      ∃ req : Request,
        (invokefunction parse ctx c n gwURL reader (some h)).map (fun out => out.2.issued) =
          some (n.issued ++ [req]) ∧
        (GoMap.keys req.Header).Nodup ∧
        (∀ k : String, GoMap.get? req.Header k = (GoMap.get? h k).map (fun v => [v])) ∧
        (∀ k : String, k ∉ GoMap.keys h → GoMap.get? req.Header k = none)) ∧
    (∃ req : Request,
      (invokefunction parse ctx c n gwURL reader (some [("X-Trace", "abc")])).map
          (fun out => out.2.issued) = some (n.issued ++ [req]) ∧
      req.Header = [("X-Trace", ["abc"])]) ∧
    (∃ req fresh : Request,
      (invokefunction parse ctx c n gwURL reader none).map (fun out => out.2.issued) =
        some (n.issued ++ [req]) ∧
      NewRequest parse MethodPost gwURL reader = some fresh ∧
      req.Header = fresh.Header) := by
  refine ⟨?_, ?_, ?_⟩
  · intro h hnd
    obtain ⟨req, hreq⟩ := buildRequest_of_parse parse ctx gwURL reader (some h) hp
    have hH : req.Header = mapOfArrays h :=
      (buildRequest_fields parse ctx gwURL reader (some h) req hreq).2.2.2.2
    refine ⟨req, invokefunction_issued parse ctx c n gwURL reader (some h) req hreq, ?_, ?_, ?_⟩
    · rw [hH, mapOfArrays_of_nodup h hnd]
      simpa [GoMap.keys, Function.comp_def] using hnd
    · intro k
      rw [hH, mapOfArrays_of_nodup h hnd]
      exact GoMap.get?_map_snd h (fun v => [v]) k
    · intro k hk
      rw [hH, mapOfArrays_of_nodup h hnd, GoMap.get?_map_snd h (fun v => [v]) k,
        GoMap.get?_eq_none_of_not_mem h k hk]
      rfl
  · obtain ⟨req, hreq⟩ :=
      buildRequest_of_parse parse ctx gwURL reader (some [("X-Trace", "abc")]) hp
    exact ⟨req, invokefunction_issued parse ctx c n gwURL reader _ req hreq,
      (buildRequest_fields parse ctx gwURL reader _ req hreq).2.2.2.2⟩
  · obtain ⟨req, hreq⟩ := buildRequest_of_parse parse ctx gwURL reader none hp
    rcases Option.isSome_iff_exists.mp hp with ⟨u, hu⟩
    refine ⟨req, Request.mk MethodPost u reader [] Context.Background,
      invokefunction_issued parse ctx c n gwURL reader none req hreq, ?_,
      (buildRequest_fields parse ctx gwURL reader none req hreq).2.2.2.2⟩
    simp only [NewRequest, hu]

/-- Witness of C9: the header mapping with the two keys X-Trace and X-User
gives a request that carries each of them with its single value and nothing
under another key. -/
theorem invokefunction_request_headers_witness :
    (urlParse "http://gw:8080/echo").isSome = true ∧
    (GoMap.keys ([("X-Trace", "abc"), ("X-User", "u1")] : GoMap String String)).Nodup ∧
    ∃ req : Request,
      (invokefunction urlParse callerCtx scripted { transport := [], issued := [] }
        "http://gw:8080/echo" [1] (some [("X-Trace", "abc"), ("X-User", "u1")])).map
          (fun out => out.2.issued) = some [req] ∧
      GoMap.get? req.Header "X-Trace" = some ["abc"] ∧
      GoMap.get? req.Header "X-User" = some ["u1"] ∧
      GoMap.get? req.Header "Accept" = none := by
  have hnd : (GoMap.keys ([("X-Trace", "abc"), ("X-User", "u1")] : GoMap String String)).Nodup := by
    decide
  obtain ⟨req, h1, _, h3, _⟩ :=
    (invokefunction_request_headers urlParse callerCtx scripted { transport := [], issued := [] }
      "http://gw:8080/echo" [1] (by decide)).1 [("X-Trace", "abc"), ("X-User", "u1")] hnd
  refine ⟨by decide, hnd, req, by simpa using h1, ?_, ?_, ?_⟩
  · rw [h3]; decide
  · rw [h3]; decide
  · rw [h3]; decide

/-- C10, as stated, fails: for a successful exchange whose response body is
read without error and has zero bytes, the body invokefunction returns is not
absent, it is a present, empty byte sequence, and so is the Body of the outcome
InvokeWithContext publishes for that target. -/
theorem invokefunction_empty_body_counterexample :
    (buildRequest urlParse callerCtx "http://gw:8080/echo" [1] none).map
      (fun req => (scripted.Do [Except.ok emptyBodyResponse] req).1.toOption.map
        (fun res => res.Body)) = some (some (some (Except.ok []))) ∧
    (invokefunction urlParse callerCtx scripted
        { transport := [Except.ok emptyBodyResponse], issued := [] }
        "http://gw:8080/echo" [1] none).map (fun out => out.1.body) = some (some []) ∧
    (invokefunction urlParse callerCtx scripted
        { transport := [Except.ok emptyBodyResponse], issued := [] }
        "http://gw:8080/echo" [1] none).map (fun out => out.1.body) ≠ some none ∧
    (InvokeWithContext urlParse gwInvoker (freshWorld [Except.ok emptyBodyResponse]) callerCtx
        (constTopicMap ["echo"]) "orders" [1] none).world.Responses.map (fun o => o.Body) =
      [some []] := by
  refine ⟨by rfl, by rfl, by decide, by decide⟩

/-- C10, amended: for every successful transport exchange whose response body
is read without error and has zero bytes, invokefunction returns a present
body of zero bytes, with the status code and headers of the response and no
error; and the outcome InvokeWithContext publishes for a target whose exchange
is such has its Body present with zero bytes. -/
theorem invokefunction_empty_body_present :
    (∀ (σ : Type) (parse : String → Option String) (ctx : Context) (c : Client σ) (n : Net σ)
        (gwURL : String) (reader : Bytes) (headers : Option (GoMap String String))
        (req : Request) (res : Response),
      buildRequest parse ctx gwURL reader headers = some req →
      (c.Do n.transport req).1 = Except.ok res →
      res.Body = some (Except.ok []) →
      (invokefunction parse ctx c n gwURL reader headers).map Prod.fst =
        some { body := some [], statusCode := res.StatusCode, header := some res.Header,
               err := none }) ∧
    (∀ (σ : Type) (parse : String → Option String) (i : Invoker σ) (w : World σ)
        (ctx : Context) (topicMap : TopicMap) (topic : String) (message : Bytes)
        (headers : Option (GoMap String String)) (k : Nat) (f : String) (req : Request)
        (res : Response),
      allParse parse i.GatewayURL ((topicMap.Match topic).take (k + 1)) →
      (topicMap.Match topic)[k]? = some f →
      buildRequest parse ctx (i.GatewayURL ++ "/" ++ f) message headers = some req →
      (i.Client.Do
          (netAfter parse i ctx message headers w.net ((topicMap.Match topic).take k)).transport
          req).1 = Except.ok res →
      res.Body = some (Except.ok []) →
      ∃ pre outs : List InvokerResponse,
        (InvokeWithContext parse i w ctx topicMap topic message headers).world.Responses =
          w.Responses ++ pre ++ outs ∧
        pre.length = (if message.length = 0 then 1 else 0) ∧
        outs.length ≤ (topicMap.Match topic).length ∧
        (allParse parse i.GatewayURL (topicMap.Match topic) →
          outs.length = (topicMap.Match topic).length) ∧
        outs[k]? = some
          { Context := ctx, Body := some [], Header := some res.Header,
            Status := res.StatusCode, Error := none, Topic := topic, Function := f }) := by
  constructor
  · intro σ parse ctx c n gwURL reader headers req res hreq hdo hbody
    rw [invokefunction_of_build parse ctx c n gwURL reader headers req hreq, Option.map_some',
      exchange_of_ok c n req res hdo, hbody]
  · intro σ parse i w ctx topicMap topic message headers k f req res hp hf hreq hdo hbody
    refine ⟨if message.length = 0 then
        [{ Context := ctx, Error := some (GoError.errorString "no message to send") }] else [],
      List.zipWith (outcomeOf ctx topic) (topicMap.Match topic)
        (invokeResults parse i ctx message headers w.net (topicMap.Match topic)),
      ?_, ?_, ?_, ?_, ?_⟩
    · rw [InvokeWithContext_eq, List.append_assoc]
    · by_cases hm : message.length = 0 <;> simp [hm]
    · exact zipWith_outcomeOf_length_le _ _ _ _
    · intro hall
      exact zipWith_outcomeOf_length _ _ _ _ (invokeResults_length _ _ _ _ _ _ _ hall)
    · have hr := invokeResults_getElem? parse i ctx message headers (topicMap.Match topic)
        w.net k hp
      rw [hf, Option.some_bind, sprintfURL,
        invokefunction_of_build parse ctx i.Client _ _ message headers req hreq,
        Option.map_some', exchange_of_ok i.Client _ req res hdo, hbody] at hr
      rw [zipWith_outcomeOf_getElem? ctx topic _ _ k f _ hf hr]
      rfl

/-- Witness of the amended C10: with resolver output f1, echo, "%zz", where
the exchange for echo answers 204 with a body of zero bytes, the outcome
published for echo has a present, empty Body. -/
theorem invokefunction_empty_body_present_witness :
    (invokefunction urlParse callerCtx scripted
        { transport := [Except.ok emptyBodyResponse], issued := [] }
        "http://gw:8080/echo" [1] none).map Prod.fst =
      some { body := some [], statusCode := 204,
             header := some [("Content-Type", ["text/plain"])], err := none } ∧
    (InvokeWithContext urlParse gwInvoker
        (freshWorld [Except.ok okResponse, Except.ok emptyBodyResponse]) callerCtx
        (constTopicMap ["f1", "echo", "%zz"]) "orders" [1] none).world.Responses[1]? =
      some
        { Context := callerCtx, Body := some [],
          Header := some [("Content-Type", ["text/plain"])], Status := 204, Error := none,
          Topic := "orders", Function := "echo" } := by
  refine ⟨invokefunction_empty_body_present.1 _ urlParse callerCtx scripted
      { transport := [Except.ok emptyBodyResponse], issued := [] } "http://gw:8080/echo" [1] none
      { Method := "POST", URL := "http://gw:8080/echo", Body := [1], Header := [],
        ctx := Context.Background }
      emptyBodyResponse (by decide) rfl rfl, ?_⟩
  obtain ⟨pre, outs, h1, h2, _, _, h5⟩ :=
    invokefunction_empty_body_present.2 _ urlParse gwInvoker
      (freshWorld [Except.ok okResponse, Except.ok emptyBodyResponse]) callerCtx
      (constTopicMap ["f1", "echo", "%zz"]) "orders" [1] none 1 "echo"
      { Method := "POST", URL := "http://gw:8080/echo", Body := [1], Header := [],
        ctx := Context.Background }
      emptyBodyResponse (by unfold allParse; decide) rfl (by decide) rfl rfl
  have hpre : pre = [] := List.length_eq_zero.mp (by simpa using h2)
  rw [h1, hpre]
  simpa [freshWorld] using h5

end ConnectorSDK
